import Mathlib

/-!
Verification development for the OCR orchestration and rule-based structuring
pipeline of the excelify_pdf repository.

The TypeScript sources are shallowly embedded: JavaScript string primitives
(`split`, `trim`, `toLowerCase`, global regex-escaped `replace`, `includes`)
are modelled as executable functions over `List Char` so that concrete inputs
evaluate inside the kernel; JavaScript objects (`Record<string, string>`) are
modelled as insertion-ordered association lists with overwrite-on-assignment;
JavaScript numbers appearing in the geometry mapper are modelled as `ℚ` with
`Math.round x = ⌊x + 1/2⌋`; arrays sorted with `Array.prototype.sort` are
modelled with a stable insertion sort.
-/

/-! ## JavaScript string primitives -/

/-- Prefix test on character lists (used to detect a separator occurrence). -/
def leadsWith : List Char → List Char → Bool
  | [], _ => true
  | _ :: _, [] => false
  | a :: as, b :: bs => a == b && leadsWith as bs

/-- Fuel-driven worker for `String.prototype.split` with a non-empty string
separator: scans left to right, cutting at each non-overlapping occurrence. -/
def splitFuel (sep : List Char) : Nat → List Char → List Char → List (List Char)
  | 0, _, acc => [acc.reverse]
  | _ + 1, [], acc => [acc.reverse]
  | fuel + 1, c :: rest, acc =>
    if leadsWith sep (c :: rest) then
      acc.reverse :: splitFuel sep fuel ((c :: rest).drop sep.length) []
    else
      splitFuel sep fuel rest (c :: acc)

/-- JavaScript `s.split(sep)`: an empty separator splits into single
characters, otherwise the string is cut at each occurrence of `sep`
(`"".split(sep) = [""]` and `"".split("") = []`, as in JavaScript). -/
def jsSplit (sep s : String) : List String :=
  if sep.data.isEmpty then s.data.map (fun c => String.mk [c])
  else (splitFuel sep.data (s.data.length + 1) s.data []).map String.mk

/-- JavaScript `s.trim()`: strip leading and trailing whitespace. -/
def jsTrim (s : String) : String :=
  String.mk (((s.data.dropWhile Char.isWhitespace).reverse.dropWhile Char.isWhitespace).reverse)

/-- JavaScript `s.toLowerCase()` (ASCII case mapping, the range exercised by
the repository's rule strings). -/
def jsToLower (s : String) : String := String.mk (s.data.map Char.toLower)

/-- Fuel-driven worker for global replacement of a non-empty literal pattern:
leftmost non-overlapping occurrences, as a `g`-flagged regex of an escaped
pattern behaves. -/
def replFuel (pat rep : List Char) : Nat → List Char → List Char
  | 0, l => l
  | _ + 1, [] => []
  | fuel + 1, c :: rest =>
    if leadsWith pat (c :: rest) then rep ++ replFuel pat rep fuel ((c :: rest).drop pat.length)
    else c :: replFuel pat rep fuel rest

/-- JavaScript `s.replace(new RegExp(escapeRegExp(pat), 'g'), rep)`: because
the pattern is regex-escaped (`escapeRegExp`, page.tsx line 65) this is a
literal global substring substitution. -/
def jsReplaceAll (s pat rep : String) : String :=
  if pat.data.isEmpty then s else String.mk (replFuel pat.data rep.data (s.data.length + 1) s.data)

/-- Substring occurrence test, modelling JavaScript `s.includes(sub)`. -/
def occursIn (sub : List Char) : List Char → Bool
  | [] => sub.isEmpty
  | c :: rest => leadsWith sub (c :: rest) || occursIn sub rest

/-- JavaScript `Array.prototype.join(sep)`. -/
def joinListWith (sep : List Char) : List (List Char) → List Char
  | [] => []
  | [l] => l
  | l :: l2 :: rest => l ++ sep ++ joinListWith sep (l2 :: rest)

/-- Join a list of strings with a separator (JavaScript `array.join(sep)`). -/
def joinWith (sep : String) (ls : List String) : String :=
  String.mk (joinListWith sep.data (ls.map String.data))

/-! ## JavaScript records

A `Record<string, string>` is an insertion-ordered association list; an
assignment `obj[k] = v` overwrites in place when `k` is already a key and
appends otherwise. -/

/-- One row of structured output: a JavaScript object from header to value. -/
abbrev Row := List (String × String)

/-- JavaScript object assignment `obj[k] = v`. -/
def recSet (row : Row) (k v : String) : Row :=
  if row.any (fun p => p.1 == k) then row.map (fun p => if p.1 == k then (k, v) else p)
  else row ++ [(k, v)]

/-! ## Structuring engine: `cleanOcrData` (src/unnamed/part_002) -/

/-- `headersString.split(',').map(h => h.trim()).filter(Boolean)`. -/
def parseHeaders (headersString : String) : List String :=
  ((jsSplit "," headersString).map jsTrim).filter (fun h => h ≠ "")

/-- `rawText.split('\n').filter(line => line.trim() !== '')`. -/
def nonBlankLines (rawText : String) : List String :=
  (jsSplit "\n" rawText).filter (fun line => jsTrim line ≠ "")

/-- `values[index]?.trim() || ''`: the field at position `i`, trimmed, or the
empty string when the line has fewer fields. -/
def fieldAt (values : List String) (i : Nat) : String := jsTrim ((values.get? i).getD "")

/-- `headers.forEach((header, index) => rowObject[header] = values[index]?.trim() || '')`. -/
def buildRow (headers values : List String) : Row :=
  headers.enum.foldl (fun acc p => recSet acc p.2 (fieldAt values p.1)) []

/-- The deterministic parser `cleanOcrData` (src/unnamed/part_002, lines
31-50): parse the headers, keep the non-blank lines, build one record per line
by positional zipping, and drop records whose values are all empty. -/
def cleanOcrData (rawText headersString separator : String) : List Row :=
  let headers := parseHeaders headersString
  if headers.isEmpty then []
  else
    ((nonBlankLines rawText).map (fun line => buildRow headers (jsSplit separator line))).filter
      (fun row => row.any (fun p => p.2 ≠ ""))

/-- Spec-side row construction, following the spec text for claim C1: zip the
header list positionally against the split fields — a missing trailing field
becomes the empty string, surplus fields are dropped (only header positions
are read). -/
def specZipRow (headers values : List String) : Row :=
  headers.enum.map (fun p => (p.2, fieldAt values p.1))

/-- Spec-side structuring for claim C1: split each remaining non-empty line by
the separator, zip positionally against the headers, and drop any record all
of whose fields are empty after trimming. -/
def specStructureRows (rawText : String) (headers : List String) (separator : String) : List Row :=
  ((nonBlankLines rawText).map (fun line => specZipRow headers (jsSplit separator line))).filter
    (fun row => row.any (fun p => p.2 ≠ ""))

/-! ## Per-task structuring: `processTask` (src/src/app/page.tsx, lines 202-247) -/

/-- One Extraction Task (page.tsx, interface `ExtractionTask`). -/
structure ExtractionTask where
  id : String
  name : String
  columnHeaders : String
  columnSeparators : String
  eliminators : String
  findValues : String
  replaceValues : String
  structuredDataPreview : Option (List Row)
deriving DecidableEq

/-- `task.findValues ? task.findValues.split(',').map(v => v.trim()) : []` (and
the same for `replaceValues`): an empty string is falsy and yields `[]`. -/
def parseRuleList (s : String) : List String :=
  if s = "" then [] else (jsSplit "," s).map jsTrim

/-- `task.eliminators ? task.eliminators.split(',').map(e => e.trim().toLowerCase()).filter(Boolean) : []`. -/
def parseEliminators (s : String) : List String :=
  if s = "" then []
  else ((jsSplit "," s).map (fun e => jsToLower (jsTrim e))).filter (fun e => e ≠ "")

/-- The correction loop (page.tsx lines 219-224): each non-empty find value is
replaced globally by the parallel replace value, in list order, later pairs
seeing the output of earlier ones.  It only runs when the two parsed lists
have equal length, so the pairwise zip is exact. -/
def applyCorrections (findValues replaceValues : List String) (text : String) : String :=
  (findValues.zip replaceValues).foldl
    (fun t fr => if fr.1 ≠ "" then jsReplaceAll t fr.1 fr.2 else t) text

/-- `!eliminators.some(e => line.toLowerCase().includes(e))` (page.tsx line 229). -/
def surviveLine (eliminators : List String) (line : String) : Bool :=
  ! eliminators.any (fun e => occursIn e.data (jsToLower line).data)

/-- The eliminator stage (page.tsx lines 227-230): when the parsed eliminator
list is non-empty, keep only the lines no lowercase eliminator occurs in, and
join them back with newlines. -/
def eliminatorFilter (eliminators : List String) (pageText : String) : String :=
  if eliminators.length > 0 then
    joinWith "\n" ((jsSplit "\n" pageText).filter (surviveLine eliminators))
  else pageText

/-- `file.manuallyEditedPages?.get(pageData.page)` on the Map modelled as an
association list. -/
def lookupPage (mp : List (Nat × String)) (page : Nat) : Option String :=
  (mp.find? (fun q => q.1 == page)).map (fun q => q.2)

/-- Stable insertion used to model `array.sort((a, b) => a.page - b.page)`. -/
def insertByPage (pd : Nat × String) : List (Nat × String) → List (Nat × String)
  | [] => [pd]
  | q :: rest => if pd.1 ≤ q.1 then pd :: q :: rest else q :: insertByPage pd rest

/-- Sort page results ascending by page number (stable, like ES2019 sort). -/
def sortByPage (l : List (Nat × String)) : List (Nat × String) :=
  l.foldr insertByPage []

/-- `processTask` (page.tsx lines 202-247).  `extractedData` is `Option`-typed
because the field may be absent (`!file.extractedData` is only true for
`undefined`, an empty array passes).  Pages are visited ascending by page
number; per page the manual edit overrides the backend text, corrections
apply only when both parsed rule lists are non-empty and of equal length, the
eliminator filter drops junk lines, blank pages contribute nothing, and
`cleanOcrData` structures the remainder with `task.columnSeparators || '\t'`. -/
def processTask (extractedData : Option (List (Nat × String)))
    (manuallyEditedPages : List (Nat × String)) (task : ExtractionTask) : List Row :=
  match extractedData with
  | none => []
  | some pages =>
    if jsTrim task.columnHeaders = "" then []
    else
      let findValues := parseRuleList task.findValues
      let replaceValues := parseRuleList task.replaceValues
      let eliminators := parseEliminators task.eliminators
      (sortByPage pages).foldl (fun acc pageData =>
        let pageText0 := (lookupPage manuallyEditedPages pageData.1).getD pageData.2
        let pageText1 :=
          if 0 < findValues.length ∧ findValues.length = replaceValues.length then
            applyCorrections findValues replaceValues pageText0
          else pageText0
        let pageText2 := eliminatorFilter eliminators pageText1
        if jsTrim pageText2 = "" then acc
        else acc ++ cleanOcrData pageText2 task.columnHeaders
          (if task.columnSeparators = "" then "\t" else task.columnSeparators)) []

/-! ## Excel export (page.tsx, `generateAndDownloadExcel`, lines 299-366:
the tesseract/google/ocrspace branch, lines 312-345) -/

/-- A worksheet body: either structured rows (`json_to_sheet`) or a literal
array-of-arrays body (`aoa_to_sheet`). -/
inductive SheetContent where
  | table (rows : List Row)
  | aoa (cells : List (List String))
deriving DecidableEq

/-- The placeholder row text emitted for a task with headers but no rows. -/
def noDataMessage : String := "No structured data was generated for this task."

/-- `let finalData = task.structuredDataPreview; if (!finalData) finalData = await processTask(...)`:
a cached preview (even an empty one — an empty array is truthy) is used as is,
otherwise the task is structured on the fly. -/
def sheetDataFor (ed : Option (List (Nat × String))) (mp : List (Nat × String))
    (task : ExtractionTask) : List Row :=
  match task.structuredDataPreview with
  | some d => d
  | none => processTask ed mp task

/-- The per-task body of the export loop (page.tsx lines 321-339): rows make a
data sheet named after the task; no rows but headers make a one-row
placeholder sheet; no rows and no headers make no sheet at all (only a
"Data Keys Missing ... Skipping sheet" toast is shown). -/
def sheetForTask (ed : Option (List (Nat × String))) (mp : List (Nat × String))
    (task : ExtractionTask) : Option (String × SheetContent) :=
  let finalData := sheetDataFor ed mp task
  if finalData.length > 0 then some (task.name, SheetContent.table finalData)
  else if jsTrim task.columnHeaders ≠ "" then some (task.name, SheetContent.aoa [[noDataMessage]])
  else none

/-- The workbook built by the export loop over `file.extractionTasks`. -/
def generateExcelSheets (ed : Option (List (Nat × String))) (mp : List (Nat × String))
    (tasks : List ExtractionTask) : List (String × SheetContent) :=
  tasks.foldl (fun wb task =>
    match sheetForTask ed mp task with
    | some s => wb ++ [s]
    | none => wb) []

/-! ## Textract table flow (src/unnamed/part_003, `textractTableFlow`) -/

/-- One Textract `Block`.  `rowIndex`/`columnIndex` use `0` for an absent or
zero (falsy) index, `text := ""` for an absent or empty (falsy) `Text`, and
`relationships` lists `(Type, Ids)` pairs. -/
structure TBlock where
  blockType : String
  id : String
  rowIndex : Nat
  columnIndex : Nat
  text : String
  relationships : List (String × List String)
deriving DecidableEq

/-- `table?.Relationships?.find(r => r.Type === 'CHILD')?.Ids`, defaulting to
no ids (`new Set(undefined)` is the empty set). -/
def childIds (rels : List (String × List String)) : List String :=
  match rels.find? (fun r => r.1 == "CHILD") with
  | some r => r.2
  | none => []

/-- `wordsById[id]`: the WORD blocks are folded into a map keyed by id, a
later block with the same id overwriting an earlier one. -/
def lookupWord (blocks : List TBlock) (id : String) : Option TBlock :=
  ((blocks.filter (fun b => b.blockType == "WORD" && b.id != "")).reverse).find?
    (fun b => b.id == id)

/-- `getCellText` (part_003 lines 100-115): concatenate the texts of the
cell's CHILD words, each followed by a space, then trim. -/
def getCellText (blocks : List TBlock) (cell : TBlock) : String :=
  jsTrim (String.mk
    (((cell.relationships.filter (fun r => r.1 == "CHILD")).map (fun r => r.2)).flatten.foldl
      (fun acc id =>
        match lookupWord blocks id with
        | some w => if w.text ≠ "" then acc ++ (w.text.data ++ [' ']) else acc
        | none => acc) []))

/-- The `(RowIndex, ColumnIndex, text)` triples of the first table's cells
(part_003 lines 117-131): cells of the first TABLE block with truthy row and
column indices, in block order; `tableData[r][c]` assignment lets a later
duplicate overwrite an earlier one. -/
def textractCellTriples (blocks : List TBlock) : List (Nat × Nat × String) :=
  match (blocks.filter (fun b => b.blockType == "TABLE")) with
  | [] => []
  | table :: _ =>
    let tableCellIds := childIds table.relationships
    let cells := blocks.filter
      (fun b => b.blockType == "CELL" && b.id != "" && tableCellIds.contains b.id)
    (cells.filter (fun c => c.rowIndex != 0 && c.columnIndex != 0)).map
      (fun c => (c.rowIndex, c.columnIndex, getCellText blocks c))

/-- `tableData[r]?.[c] || ''` (last assignment wins). -/
def cellTextAt (triples : List (Nat × Nat × String)) (r c : Nat) : String :=
  (((triples.reverse).find? (fun t => t.1 == r && t.2.1 == c)).map (fun t => t.2.2)).getD ""

/-- `rowsAsArrays` (part_003 lines 133-140): the dense `maxRow × maxCol` grid
of cell texts, rows and columns indexed from 1. -/
def textractRowGrid (blocks : List TBlock) : List (List String) :=
  let triples := textractCellTriples blocks
  let maxRow := triples.foldl (fun m t => max m t.1) 0
  let maxCol := triples.foldl (fun m t => max m t.2.1) 0
  (List.range maxRow).map (fun r0 => (List.range maxCol).map (fun c0 => cellTextAt triples (r0 + 1) (c0 + 1)))

/-- `rowObject[header] = row[index] || ''` — the record built for one Textract
data row (no trimming here, unlike `cleanOcrData`). -/
def buildTextractRow (headers row : List String) : Row :=
  headers.enum.foldl (fun acc p => recSet acc p.2 ((row.get? p.1).getD "")) []

/-- `textractTableFlow` (part_003 lines 60-156) modelled on the parsed block
list (`none` models a response with no `Blocks`).  After the grid is built the
source takes the first row as headers when more than one row exists (a
destructive `shift`), otherwise synthesizes "Column N" headers; re-evaluates
`rowsAsArrays.length > 1` after the shift for `dataRows`; and returns no rows
when exactly one row remains at that point. -/
def textractTableFlow (blocksOpt : Option (List TBlock)) : List Row :=
  match blocksOpt with
  | none => []
  | some blocks =>
    match (blocks.filter (fun b => b.blockType == "TABLE")) with
    | [] => []
    | _ :: _ =>
      match textractRowGrid blocks with
      | [] => []
      | r0 :: rest =>
        let headers :=
          if rest.length > 0 then r0
          else r0.enum.map (fun p => "Column " ++ toString (p.1 + 1))
        let remaining := if rest.length > 0 then rest else [r0]
        let dataRows := if remaining.length > 1 then remaining else [([] : List String)]
        if remaining.length == 1 then []
        else dataRows.map (fun row => buildTextractRow headers row)

/-! ## Geometry mapper (page.tsx, `handleMouseUp`, lines 1256-1298) -/

/-- `Math.round x = ⌊x + 1/2⌋` (round half toward positive infinity, as
JavaScript does). -/
def jsRound (q : ℚ) : ℤ := ⌊q + 1/2⌋

/-- A rectangle in display space (JavaScript numbers, modelled as `ℚ`). -/
structure RectQ where
  left : ℚ
  top : ℚ
  width : ℚ
  height : ℚ
deriving DecidableEq

/-- A rectangle in full-resolution space (`Math.round` outputs). -/
structure RectZ where
  left : ℤ
  top : ℤ
  width : ℤ
  height : ℤ
deriving DecidableEq

/-- `drawnRect` (page.tsx lines 1267-1272): the axis-aligned rectangle spanned
by the mouse-down point and the mouse-up point. -/
def drawnRectOf (startX startY x y : ℚ) : RectQ :=
  { left := min startX x, top := min startY y, width := |startX - x|, height := |startY - y| }

/-- One axis of the scaling (page.tsx lines 1286-1291):
`Math.round((value / display) * original)`. -/
def mapAxis (v d o : ℚ) : ℤ := jsRound (v / d * o)

/-- The geometry mapping of `handleMouseUp` (page.tsx lines 1274-1291): a
rectangle whose display-space width or height is below 5 is discarded
(`none`); otherwise each of left, top, width, height is scaled independently
by the full-resolution/display ratio of its axis and rounded, with no
clamping. -/
def mapRect (r : RectQ) (dw dh ow oh : ℚ) : Option RectZ :=
  if r.width < 5 ∨ r.height < 5 then none
  else some
    { left := mapAxis r.left dw ow, top := mapAxis r.top dh oh,
      width := mapAxis r.width dw ow, height := mapAxis r.height dh oh }

/-- View a full-resolution rectangle as rational input for a reverse mapping. -/
def rectZQ (r : RectZ) : RectQ :=
  { left := (r.left : ℚ), top := (r.top : ℚ), width := (r.width : ℚ), height := (r.height : ℚ) }

/-! ## Language selection (page.tsx, `handleLanguageChange`, lines 88-132) -/

/-- page.tsx line 69. -/
def ENG_CHARS : String := "abcdefghijklmnopqrstuvwxyzABCDEFGHIJKLMNOPQRSTUVWXYZ0123456789"

/-- page.tsx line 70. -/
def HINDI_CHARS : String := "ँंःअआइईउऊऋएऐओऔकखगघङचछजझञटठडढणतथदधनपफबभमयरलवशषसह़ािीुूृेैोौ्०१२३४५६७८९"

/-- page.tsx line 71. -/
def SYMBOLS : String := ".,-/:()# "

/-- The language-selection state: the selected language list and the derived
character whitelist (React state `languages` and `charWhitelist`). -/
structure LangConfig where
  languages : List String
  charWhitelist : String
deriving DecidableEq

/-- `Set.add`: append if absent (JavaScript sets preserve insertion order). -/
def addLang (ls : List String) (x : String) : List String :=
  if x ∈ ls then ls else ls ++ [x]

/-- `Set.delete`. -/
def removeLang (ls : List String) (x : String) : List String :=
  ls.filter (fun y => y ≠ x)

/-- `new Set(prev)`: deduplicate keeping first occurrences. -/
def jsSetOfList (ls : List String) : List String :=
  ls.foldl (fun acc x => if x ∈ acc then acc else acc ++ [x]) []

/-- The requested new language list (page.tsx lines 90-108): "hinglish" adds
or removes both "eng" and "hin", any other language adds or removes itself. -/
def computeNewLangs (lang : String) (checked : Bool) (prev : List String) : List String :=
  let current := jsSetOfList prev
  if lang = "hinglish" then
    if checked then addLang (addLang current "eng") "hin"
    else removeLang (removeLang current "eng") "hin"
  else
    if checked then addLang current lang else removeLang current lang

/-- The whitelist derivation (page.tsx lines 119-127): English block when
"eng" is selected, then the Hindi block when "hin" is selected, then the
fixed symbol set. -/
def deriveWhitelist (langs : List String) : String :=
  (if "eng" ∈ langs then ENG_CHARS else "") ++ (if "hin" ∈ langs then HINDI_CHARS else "") ++ SYMBOLS

/-- `handleLanguageChange` (page.tsx lines 88-132): a change that would leave
zero languages returns the previous state unchanged (only a toast fires, and
`setCharWhitelist` is not called); otherwise the new list is committed and the
whitelist rederived. -/
def handleLanguageChange (lang : String) (checked : Bool) (st : LangConfig) : LangConfig :=
  let newLangs := computeNewLangs lang checked st.languages
  if newLangs = [] then st
  else { languages := newLangs, charWhitelist := deriveWhitelist newLangs }

/-! ## Document pipeline run model (page.tsx, `processFile`, lines 378-603)

`processFile` is a sequence of `setFiles` state updates around a sequential
page loop inside one `try`/`catch`.  The model threads the files list through
the updates the source performs: the initial `processing` update, one
progress update per recognized page, and either the final success update or
the `catch` handler's error update.  Recognition and page rendering are
abstracted as function parameters (`recognize` returning the final page text
or the structured rows, `render` returning the rendered page image); a thrown
backend error for a page is `Except.error`. -/

/-- Document lifecycle status. -/
inductive FileStatus where
  | pending
  | awaitingSelection
  | processing
  | completed
  | error
deriving DecidableEq

/-- The chosen recognition backend. -/
inductive OcrEngine where
  | tesseract
  | textract
  | google
  | ocrspace
deriving DecidableEq

/-- The per-document state (page.tsx, interface `ProcessedFile`; the fields
the pipeline claims touch).  `pageImages` models the sparse image array as an
association list from page number to image data. -/
structure ProcessedFile where
  id : String
  status : FileStatus
  progress : Nat
  ocrEngine : Option OcrEngine
  languages : Option (List String)
  error : Option String
  extractedData : Option (List (Nat × String))
  pageImages : List (Nat × String)
  analysis : Option String
  manuallyEditedPages : List (Nat × String)
  totalPages : Option Nat
  selectedPages : List Nat
  structuredDataPreview : Option (List Row)
  extractionTasks : List ExtractionTask
deriving DecidableEq

/-- What one page recognition produces: raw text (tesseract, google, ocrspace)
or structured rows (textract). -/
inductive PageOut where
  | text (t : String)
  | rows (rs : List Row)
deriving DecidableEq

/-- Run configuration captured when the run is triggered: the engine, the
selected languages, and the id used for a freshly created default task
(`task-${Date.now()}` in the source). -/
structure RunConfig where
  engine : OcrEngine
  langs : List String
  freshTaskId : String
deriving DecidableEq

/-- The result of one run: the final files list plus whether the in-process
recognizer worker was created and whether `terminate()` was called on it. -/
structure RunOutcome where
  files : List ProcessedFile
  workerCreated : Bool
  workerTerminated : Bool
deriving DecidableEq

/-- The initial `setFiles` of `processFile` (page.tsx lines 382-397): status
`processing`, progress 5, engine and languages recorded, previous extracted
text always cleared, analysis and manual edits kept only on a re-recognition
(`isReOcr`, decided by the snapshot's page image cache being non-empty), and
every task's cached preview cleared. -/
def initialRunUpdate (snapshot : ProcessedFile) (cfg : RunConfig)
    (files : List ProcessedFile) : List ProcessedFile :=
  let isReOcr := snapshot.pageImages.length > 0
  files.map (fun f =>
    if f.id == snapshot.id then
      { f with
        status := FileStatus.processing, progress := 5,
        ocrEngine := some cfg.engine, languages := some cfg.langs,
        extractedData := some [],
        analysis := if isReOcr then f.analysis else some "Processing...",
        manuallyEditedPages := if isReOcr then f.manuallyEditedPages else [],
        extractionTasks := f.extractionTasks.map (fun t => { t with structuredDataPreview := none }) }
    else f)

/-- The per-page progress update (page.tsx lines 536-538):
`min(100, round(5 + done/total*95))`. -/
def progressRunUpdate (id : String) (done total : Nat)
    (files : List ProcessedFile) : List ProcessedFile :=
  let progress := min 100 (Int.toNat (jsRound (5 + ((done : ℚ) / (total : ℚ)) * 95)))
  files.map (fun f => if f.id == id then { f with progress := progress } else f)

/-- The default task created on a first successful text-engine run
(page.tsx lines 567-575). -/
def defaultExtractionTask (id : String) : ExtractionTask :=
  { id := id, name := "Sheet 1", columnHeaders := "", columnSeparators := "\t",
    eliminators := "", findValues := "", replaceValues := "",
    structuredDataPreview := none }

/-- The final success `setFiles` (page.tsx lines 552-591): textract stores the
accumulated structured rows and a summary; text engines store the page texts
sorted by page number and the page image cache, and either keep the existing
tasks with cleared previews (re-recognition) or create the single default
task. -/
def successRunUpdate (snapshot : ProcessedFile) (cfg : RunConfig)
    (results : List (Nat × String)) (images : List (Nat × String)) (structured : List Row)
    (files : List ProcessedFile) : List ProcessedFile :=
  files.map (fun f =>
    if f.id == snapshot.id then
      if cfg.engine = OcrEngine.textract then
        { f with
          status := FileStatus.completed, progress := 100,
          structuredDataPreview := some structured,
          analysis := some ("Extracted " ++ toString structured.length
            ++ " rows using Amazon Textract\u0027s table analysis.") }
      else
        { f with
          status := FileStatus.completed, progress := 100,
          extractedData := some (sortByPage results),
          pageImages := images,
          extractionTasks :=
            if f.extractionTasks.length > 0 then
              f.extractionTasks.map (fun t => { t with structuredDataPreview := none })
            else [defaultExtractionTask cfg.freshTaskId],
          analysis := some "Processing complete. Review extracted text and define extraction rules." }
    else f)

/-- The `catch` handler (page.tsx lines 593-602): the entry is replaced by the
snapshot `processedFile` that was passed into the run, with only status,
progress and the error message overridden — and nothing else; in particular no
`terminate()` call appears on this path. -/
def errorRunUpdate (snapshot : ProcessedFile) (msg : String)
    (files : List ProcessedFile) : List ProcessedFile :=
  files.map (fun f =>
    if f.id == snapshot.id then
      { snapshot with status := FileStatus.error, progress := 0, error := some msg }
    else f)

/-- Association-list assignment used for the page image cache
(`newPageImagesForFile[pageNumber - 1] = imageDataUri`). -/
def setAssoc (l : List (Nat × String)) (k : Nat) (v : String) : List (Nat × String) :=
  if l.any (fun q => q.1 == k) then l.map (fun q => if q.1 == k then (k, v) else q)
  else l ++ [(k, v)]

/-- Loop-carried accumulators of the page loop (page.tsx lines 422-426). -/
structure RunAcc where
  results : List (Nat × String)
  images : List (Nat × String)
  structured : List Row
  files : List ProcessedFile
  done : Nat
deriving DecidableEq

/-- The page loop (page.tsx lines 429-540) followed by the worker teardown and
the final update (lines 542-591), with the `catch` handler (lines 593-602) on
the failure path.  The worker is created exactly for the tesseract engine
(lines 410-420); `terminate()` is reached only when the loop finishes without
a throw (lines 542-544). -/
def runLoop (snapshot : ProcessedFile) (cfg : RunConfig)
    (recognize : Nat → Except String PageOut) (render : Nat → String) (total : Nat) :
    List Nat → RunAcc → RunOutcome
  | [], acc =>
    { files := successRunUpdate snapshot cfg acc.results acc.images acc.structured acc.files,
      workerCreated := cfg.engine == OcrEngine.tesseract,
      workerTerminated := cfg.engine == OcrEngine.tesseract }
  | p :: ps, acc =>
    match recognize p with
    | Except.error msg =>
      { files := errorRunUpdate snapshot msg acc.files,
        workerCreated := cfg.engine == OcrEngine.tesseract,
        workerTerminated := false }
    | Except.ok out =>
      let acc1 :=
        match out with
        | PageOut.text t =>
          { acc with
            results := acc.results ++ [(p, t)],
            images := setAssoc acc.images p (render p) }
        | PageOut.rows rs => { acc with structured := acc.structured ++ rs }
      let acc2 :=
        { acc1 with
          done := acc1.done + 1,
          files := progressRunUpdate snapshot.id (acc1.done + 1) total acc1.files }
      runLoop snapshot cfg recognize render total ps acc2

/-- Natural-number insertion used to model `Array.from(set).sort((a, b) => a - b)`. -/
def insertNat (n : Nat) : List Nat → List Nat
  | [] => [n]
  | m :: rest => if n ≤ m then n :: m :: rest else m :: insertNat n rest

/-- Sort the selected page numbers ascending. -/
def sortNats (l : List Nat) : List Nat := l.foldr insertNat []

/-- One full processing run over the snapshot's selected pages (ascending),
starting from the initial `processing` update. -/
def processFileRun (files : List ProcessedFile) (snapshot : ProcessedFile) (cfg : RunConfig)
    (recognize : Nat → Except String PageOut) (render : Nat → String) : RunOutcome :=
  let pages := sortNats snapshot.selectedPages
  runLoop snapshot cfg recognize render pages.length pages
    { results := [], images := [], structured := [],
      files := initialRunUpdate snapshot cfg files, done := 0 }

/-- The first page failure of a run, if any (the exception that reaches the
`catch` handler). -/
def firstFailure (recognize : Nat → Except String PageOut) : List Nat → Option String
  | [] => none
  | p :: ps =>
    match recognize p with
    | Except.error msg => some msg
    | Except.ok _ => firstFailure recognize ps

/-! ## Helper lemmas -/

/-- `leadsWith` decides list prefixing. -/
lemma leadsWith_iff (sub l : List Char) : leadsWith sub l = true ↔ sub <+: l := by
  induction sub generalizing l with
  | nil => simp [leadsWith]
  | cons a as ih =>
    cases l with
    | nil => simp [leadsWith]
    | cons b bs => simp [leadsWith, List.cons_prefix_cons, ih]

/-- `occursIn` decides substring (infix) occurrence. -/
lemma occursIn_iff (sub l : List Char) : occursIn sub l = true ↔ sub <:+: l := by
  induction l with
  | nil => simp [occursIn, List.isEmpty_iff]
  | cons c rest ih => simp [occursIn, leadsWith_iff, ih, List.infix_cons_iff]

/-- Assigning a fresh key to a JavaScript record appends it. -/
lemma recSet_of_fresh (row : Row) (k v : String) (h : ∀ p ∈ row, p.1 ≠ k) :
    recSet row k v = row ++ [(k, v)] := by
  unfold recSet
  rw [if_neg]
  simp only [List.any_eq_true, beq_iff_eq, not_exists]
  rintro p ⟨hp, hpk⟩
  exact h p hp hpk

/-- With pairwise distinct headers whose keys are all fresh for the
accumulator, the `forEach` assignment loop appends one entry per header. -/
lemma buildRow_aux (values : List String) (hs : List String) :
    ∀ (n : Nat) (acc : Row), hs.Nodup → (∀ h ∈ hs, ∀ p ∈ acc, p.1 ≠ h) →
      (List.enumFrom n hs).foldl (fun acc p => recSet acc p.2 (fieldAt values p.1)) acc =
        acc ++ (List.enumFrom n hs).map (fun p => (p.2, fieldAt values p.1)) := by
  induction hs with
  | nil => intro n acc _ _; simp
  | cons h t ih =>
    intro n acc hnd hfresh
    have hfresh0 : ∀ p ∈ acc, p.1 ≠ h := hfresh h (List.mem_cons_self h t)
    have hstep : recSet acc h (fieldAt values n) = acc ++ [(h, fieldAt values n)] :=
      recSet_of_fresh acc h _ hfresh0
    have hnd' : t.Nodup := (List.nodup_cons.mp hnd).2
    have hnotmem : h ∉ t := (List.nodup_cons.mp hnd).1
    have hfresh' : ∀ h2 ∈ t, ∀ p ∈ acc ++ [(h, fieldAt values n)], p.1 ≠ h2 := by
      intro h2 h2mem p hp
      rcases List.mem_append.mp hp with hpacc | hpnew
      · exact hfresh h2 (List.mem_cons_of_mem h h2mem) p hpacc
      · have hpeq : p = (h, fieldAt values n) := by simpa using hpnew
        subst hpeq
        intro hcontra
        simp only at hcontra
        subst hcontra
        exact hnotmem h2mem
    calc (List.enumFrom n (h :: t)).foldl (fun acc p => recSet acc p.2 (fieldAt values p.1)) acc
        = (List.enumFrom (n + 1) t).foldl (fun acc p => recSet acc p.2 (fieldAt values p.1))
            (recSet acc h (fieldAt values n)) := by simp [List.enumFrom]
      _ = (acc ++ [(h, fieldAt values n)]) ++
            (List.enumFrom (n + 1) t).map (fun p => (p.2, fieldAt values p.1)) := by
            rw [hstep]; exact ih (n + 1) _ hnd' hfresh'
      _ = acc ++ (List.enumFrom n (h :: t)).map (fun p => (p.2, fieldAt values p.1)) := by
            simp [List.enumFrom]

/-- With pairwise distinct headers, the record built by the `forEach` loop is
exactly the positional zip of headers against padded, trimmed fields. -/
lemma buildRow_eq_specZipRow (hs values : List String) (hnd : hs.Nodup) :
    buildRow hs values = specZipRow hs values := by
  unfold buildRow specZipRow
  have h := buildRow_aux values hs 0 [] hnd (by simp)
  simpa [List.enum_eq_enumFrom] using h

/-! ## Claim C1 -/

/-- Claim C1: for every raw page text, non-empty (and pairwise distinct)
header list, and separator, `cleanOcrData` splits each remaining non-empty
line by the separator and zips the fields positionally against the header
list — a line with fewer fields than headers yields empty strings for the
missing trailing fields, a line with more fields drops the extras — and drops
every record all of whose fields are empty after trimming: its output is
exactly the spec-side `specStructureRows`. -/
theorem claim_C1_structuring (rawText headersString separator : String)
    (hne : parseHeaders headersString ≠ [])
    (hnd : (parseHeaders headersString).Nodup) :
    cleanOcrData rawText headersString separator =
      specStructureRows rawText (parseHeaders headersString) separator := by
  unfold cleanOcrData specStructureRows
  rw [if_neg (by simpa [List.isEmpty_iff] using hne)]
  congr 1
  apply List.map_congr_left
  intro line _
  exact buildRow_eq_specZipRow _ _ hnd

/-- Witness for claim C1 at a concrete input: two data lines (one with a
missing field, one with a surplus field) around a blank line. -/
theorem claim_C1_witness :
    parseHeaders "Name,Age" ≠ [] ∧ (parseHeaders "Name,Age").Nodup ∧
      cleanOcrData "John\t25\n \nJane\t30\t99\nBob" "Name,Age" "\t" =
        specStructureRows "John\t25\n \nJane\t30\t99\nBob" (parseHeaders "Name,Age") "\t" ∧
      cleanOcrData "John\t25\n \nJane\t30\t99\nBob" "Name,Age" "\t" =
        [[("Name", "John"), ("Age", "25")], [("Name", "Jane"), ("Age", "30")],
          [("Name", "Bob"), ("Age", "")]] :=
  ⟨by decide, by decide, claim_C1_structuring _ _ _ (by decide) (by decide), by decide⟩

/-! ## Claim C2 -/

/-- Claim C2: when a task's parsed find and replace lists have unequal
non-zero lengths, `processTask` produces exactly the output of the same call
with both lists empty — the mismatch disables correction and does not fail
the run. -/
theorem claim_C2_mismatch_disables_corrections (ed : Option (List (Nat × String)))
    (mp : List (Nat × String)) (task : ExtractionTask)
    (hf : (parseRuleList task.findValues).length ≠ 0)
    (hr : (parseRuleList task.replaceValues).length ≠ 0)
    (hne : (parseRuleList task.findValues).length ≠ (parseRuleList task.replaceValues).length) :
    processTask ed mp task =
      processTask ed mp { task with findValues := "", replaceValues := "" } := by
  cases ed with
  | none => rfl
  | some pages =>
    have hL : ¬(0 < (parseRuleList task.findValues).length ∧
        (parseRuleList task.findValues).length = (parseRuleList task.replaceValues).length) := by
      rintro ⟨_, he⟩
      exact hne he
    have hR : ¬(0 < (parseRuleList ("" : String)).length ∧
        (parseRuleList ("" : String)).length = (parseRuleList ("" : String)).length) := by
      simp [parseRuleList]
    simp only [processTask, hL, hR, if_false]
    simp [parseRuleList]

/-- Witness for claim C2 at a concrete input: two find values against one
replace value leave the raw text uncorrected. -/
theorem claim_C2_witness :
    (parseRuleList "O,l").length ≠ 0 ∧ (parseRuleList "0").length ≠ 0 ∧
      (parseRuleList "O,l").length ≠ (parseRuleList "0").length ∧
      processTask (some [(1, "JOhn\t25")]) []
          { id := "t1", name := "Sheet 1", columnHeaders := "Name,Age",
            columnSeparators := "\t", eliminators := "", findValues := "O,l",
            replaceValues := "0", structuredDataPreview := none } =
        processTask (some [(1, "JOhn\t25")]) []
          { id := "t1", name := "Sheet 1", columnHeaders := "Name,Age",
            columnSeparators := "\t", eliminators := "", findValues := "",
            replaceValues := "", structuredDataPreview := none } :=
  ⟨by decide, by decide, by decide,
    claim_C2_mismatch_disables_corrections _ _ _ (by decide) (by decide) (by decide)⟩

/-! ## Claim C8 -/

/-- Claim C8: for every page text and non-empty eliminator list, the
eliminator stage keeps exactly the lines whose lowercase form contains no
eliminator keyword as a substring — a line is dropped if and only if some
eliminator occurs in its lowercase form. -/
theorem claim_C8_eliminators_case_insensitive (pageText : String) (es : List String)
    (hne : es ≠ []) :
    eliminatorFilter es pageText =
      joinWith "\n" ((jsSplit "\n" pageText).filter
        (fun line => decide (¬ ∃ e ∈ es, e.data <:+: (jsToLower line).data))) := by
  unfold eliminatorFilter
  rw [if_pos (List.length_pos.mpr hne)]
  congr 1
  apply List.filter_congr
  intro line _
  unfold surviveLine
  by_cases hx : ∃ e ∈ es, e.data <:+: (jsToLower line).data
  · have hany : es.any (fun e => occursIn e.data (jsToLower line).data) = true := by
      rw [List.any_eq_true]
      obtain ⟨e, he, hinf⟩ := hx
      exact ⟨e, he, (occursIn_iff _ _).2 hinf⟩
    simp [hany, hx]
  · have hany : es.any (fun e => occursIn e.data (jsToLower line).data) = false := by
      rw [List.any_eq_false]
      intro e he hc
      exact hx ⟨e, he, (occursIn_iff _ _).1 hc⟩
    simp [hany, hx]

/-- Witness for claim C8 at the spec's concrete scenario: the eliminator
"page no." removes the line "PAGE NO. 3" case-insensitively. -/
theorem claim_C8_witness :
    (["page no."] : List String) ≠ [] ∧
      eliminatorFilter ["page no."] "John\t25\nPAGE NO. 3\nJane\t30" =
        joinWith "\n" ((jsSplit "\n" "John\t25\nPAGE NO. 3\nJane\t30").filter
          (fun line => decide (¬ ∃ e ∈ (["page no."] : List String),
            e.data <:+: (jsToLower line).data))) ∧
      eliminatorFilter ["page no."] "John\t25\nPAGE NO. 3\nJane\t30" = "John\t25\nJane\t30" :=
  ⟨by decide, claim_C8_eliminators_case_insensitive _ _ (by decide), by decide⟩

/-! ## Claim C3 -/

/-- A Textract response whose first (and only) table has two rows in one
column: a header cell "Name" above a data cell "John". -/
def twoRowTableBlocks : List TBlock :=
  [{ blockType := "TABLE", id := "tab1", rowIndex := 0, columnIndex := 0, text := "",
     relationships := [("CHILD", ["c11", "c21"])] },
   { blockType := "CELL", id := "c11", rowIndex := 1, columnIndex := 1, text := "",
     relationships := [("CHILD", ["w1"])] },
   { blockType := "CELL", id := "c21", rowIndex := 2, columnIndex := 1, text := "",
     relationships := [("CHILD", ["w2"])] },
   { blockType := "WORD", id := "w1", rowIndex := 0, columnIndex := 0, text := "Name",
     relationships := [] },
   { blockType := "WORD", id := "w2", rowIndex := 0, columnIndex := 0, text := "John",
     relationships := [] }]

/-- A Textract response with a WORD block but no TABLE block at all. -/
def noTableBlocks : List TBlock :=
  [{ blockType := "WORD", id := "w1", rowIndex := 0, columnIndex := 0, text := "loose text",
     relationships := [] }]

/-- A Textract response whose only table has a single cell "Name" at (1,1). -/
def oneRowTableBlocks : List TBlock :=
  [{ blockType := "TABLE", id := "tab1", rowIndex := 0, columnIndex := 0, text := "",
     relationships := [("CHILD", ["c11"])] },
   { blockType := "CELL", id := "c11", rowIndex := 1, columnIndex := 1, text := "",
     relationships := [("CHILD", ["w1"])] },
   { blockType := "WORD", id := "w1", rowIndex := 0, columnIndex := 0, text := "Name",
     relationships := [] }]

/-- Claim C3, evaluated at the failing inputs: the cell grid of
`twoRowTableBlocks` really is the two-row table [["Name"], ["John"]], yet
`textractTableFlow` returns zero rows for it (the `rowsAsArrays.length === 1`
check fires after the header row has been shifted off, discarding the sole
data row), and a one-row table also returns zero rows instead of a record
under synthesized "Column N" headers; a response with no TABLE block yields
zero rows, as the claim says. -/
theorem claim_C3_short_table_rows_dropped :
    textractRowGrid twoRowTableBlocks = [["Name"], ["John"]] ∧
    textractTableFlow (some twoRowTableBlocks) = [] ∧
    textractRowGrid oneRowTableBlocks = [["Name"]] ∧
    textractTableFlow (some oneRowTableBlocks) = [] ∧
    textractTableFlow (some noTableBlocks) = [] ∧
    textractTableFlow none = [] := by decide

/-! ## Claim C5 -/

/-- An extraction task with no headers defined and no cached preview. -/
def noHeadersTask : ExtractionTask :=
  { id := "t1", name := "Sheet 1", columnHeaders := "", columnSeparators := "\t",
    eliminators := "", findValues := "", replaceValues := "",
    structuredDataPreview := none }

/-- Counterexample to claim C5 as stated: a task with no headers defined is
not surfaced as a "no data" placeholder row — the export loop emits no sheet
for it at all (only a "Skipping sheet" toast fires), so the workbook for a
file whose sole task has no headers is empty. -/
theorem claim_C5_counterexample :
    generateExcelSheets (some [(1, "John\t25")]) [] [noHeadersTask] = [] ∧
    sheetForTask (some [(1, "John\t25")]) [] noHeadersTask = none := by decide

/-- Claim C5 as amended: at export time a task with no headers defined
produces no structured data and contributes no sheet at all (no placeholder
either); a task with headers defined but zero resulting rows still emits a
sheet containing the single explanatory placeholder row. -/
theorem claim_C5_export_sheets (ed : Option (List (Nat × String)))
    (mp : List (Nat × String)) (task : ExtractionTask) :
    (jsTrim task.columnHeaders = "" →
      processTask ed mp task = [] ∧
        (task.structuredDataPreview = none → sheetForTask ed mp task = none)) ∧
    (jsTrim task.columnHeaders ≠ "" → sheetDataFor ed mp task = [] →
      sheetForTask ed mp task = some (task.name, SheetContent.aoa [[noDataMessage]])) := by
  constructor
  · intro h0
    have hpt : processTask ed mp task = [] := by
      cases ed with
      | none => rfl
      | some pages => simp [processTask, h0]
    refine ⟨hpt, fun hprev => ?_⟩
    unfold sheetForTask sheetDataFor
    rw [hprev]
    simp [hpt, h0]
  · intro h1 h2
    unfold sheetForTask
    rw [h2]
    simp [h1]

/-- Witness for claim C5 at a concrete input: a task with headers "Name,Age"
over an empty page set yields zero rows and the placeholder sheet. -/
theorem claim_C5_witness :
    jsTrim ("Name,Age" : String) ≠ "" ∧
      sheetDataFor (some []) []
          { id := "t2", name := "Sheet 1", columnHeaders := "Name,Age",
            columnSeparators := "\t", eliminators := "", findValues := "",
            replaceValues := "", structuredDataPreview := none } = [] ∧
      sheetForTask (some []) []
          { id := "t2", name := "Sheet 1", columnHeaders := "Name,Age",
            columnSeparators := "\t", eliminators := "", findValues := "",
            replaceValues := "", structuredDataPreview := none } =
        some ("Sheet 1", SheetContent.aoa [[noDataMessage]]) :=
  ⟨by decide, by decide, (claim_C5_export_sheets _ _ _).2 (by decide) (by decide)⟩

/-! ## Claim C6 -/

/-- Claim C6: a drawn rectangle whose display-space width or height is below 5
is discarded and nothing is added; otherwise each of left, top, width and
height is mapped independently as `round(v * original / display)` for its
axis, with no clamping of out-of-bounds results (the mapped value is exactly
the rounded ratio, whatever its sign or size). -/
theorem claim_C6_roi_mapping (r : RectQ) (dw dh ow oh : ℚ) :
    (mapRect r dw dh ow oh = none ↔ (r.width < 5 ∨ r.height < 5)) ∧
    (¬(r.width < 5 ∨ r.height < 5) →
      mapRect r dw dh ow oh = some
        { left := jsRound (r.left * ow / dw), top := jsRound (r.top * oh / dh),
          width := jsRound (r.width * ow / dw), height := jsRound (r.height * oh / dh) }) := by
  constructor
  · by_cases h : r.width < 5 ∨ r.height < 5 <;> simp [mapRect, h]
  · intro h
    simp [mapRect, mapAxis, h, div_mul_eq_mul_div]

/-- Witness for claim C6 at a concrete input: a 10×6 rectangle at (-3, 2) on a
100×50 display of a 200×100 page maps to (-6, 4, 20, 12) — the negative left
coordinate is kept, unclamped. -/
theorem claim_C6_witness :
    ¬((RectQ.mk (-3) 2 10 6).width < 5 ∨ (RectQ.mk (-3) 2 10 6).height < 5) ∧
      mapRect (RectQ.mk (-3) 2 10 6) 100 50 200 100 =
        some { left := jsRound ((-3) * 200 / 100), top := jsRound (2 * 100 / 50),
               width := jsRound (10 * 200 / 100), height := jsRound (6 * 100 / 50) } ∧
      mapRect (RectQ.mk (-3) 2 10 6) 100 50 200 100 =
        some { left := -6, top := 4, width := 20, height := 12 } :=
  ⟨by decide, (claim_C6_roi_mapping _ _ _ _ _).2 (by decide), by
    norm_num [mapRect, mapAxis, jsRound]⟩

/-! ## Claim C7 -/

/-- Counterexample to claim C7 as stated: with a display larger than the
full-resolution image (display 10×10, full resolution 1×1) the rectangle at
left 4 maps to left 0, maps back to left 0, and misses the original left
coordinate by 4 — far more than 1 unit. -/
theorem claim_C7_counterexample :
    mapRect (RectQ.mk 4 0 60 60) 10 10 1 1 = some (RectZ.mk 0 0 6 6) ∧
    mapRect (rectZQ (RectZ.mk 0 0 6 6)) 1 1 10 10 = some (RectZ.mk 0 0 60 60) ∧
    ¬(|((RectZ.mk 0 0 60 60).left : ℚ) - (RectQ.mk 4 0 60 60).left| ≤ 1) := by
  refine ⟨?_, ?_, ?_⟩ <;> norm_num [mapRect, mapAxis, jsRound, rectZQ]

/-- A rounded scaled value stays at or above 5 when the value does and the
scale factor is at least one. -/
lemma five_le_mapAxis (v d o : ℚ) (hd : 0 < d) (hdo : d ≤ o) (hv : 5 ≤ v) :
    (5 : ℤ) ≤ mapAxis v d o := by
  unfold mapAxis jsRound
  apply Int.le_floor.2
  push_cast
  have hratio : (1 : ℚ) ≤ o / d := (one_le_div hd).2 hdo
  have hge : v ≤ v / d * o := by
    calc v = v * 1 := by ring
      _ ≤ v * (o / d) := mul_le_mul_of_nonneg_left hratio (by linarith)
      _ = v / d * o := by ring
  linarith

/-- A rectangle that is not discarded maps to the componentwise rounded
scaling. -/
lemma mapRect_eq_some (r : RectQ) (dw dh ow oh : ℚ) (h : ¬(r.width < 5 ∨ r.height < 5)) :
    mapRect r dw dh ow oh = some (RectZ.mk (mapAxis r.left dw ow) (mapAxis r.top dh oh)
      (mapAxis r.width dw ow) (mapAxis r.height dh oh)) := by
  unfold mapRect
  rw [if_neg h]

/-- Round-trip error bound for one axis: scaling up by `o/d ≥ 1` with
rounding, then scaling back down with rounding, lands within 1 of the
original value. -/
lemma roundtrip_axis (v d o : ℚ) (hd : 0 < d) (hdo : d ≤ o) :
    |((mapAxis ((mapAxis v d o : ℤ) : ℚ) o d : ℤ) : ℚ) - v| ≤ 1 := by
  have ho : 0 < o := lt_of_lt_of_le hd hdo
  have hd0 : d ≠ 0 := ne_of_gt hd
  have ho0 : o ≠ 0 := ne_of_gt ho
  unfold mapAxis jsRound
  set a : ℚ := v / d * o with ha
  set k : ℤ := ⌊a + 1/2⌋ with hk
  set b : ℚ := (k : ℚ) / o * d with hb
  set m : ℤ := ⌊b + 1/2⌋ with hm
  have h1 : (k : ℚ) ≤ a + 1/2 := Int.floor_le _
  have h2 : a + 1/2 < (k : ℚ) + 1 := Int.lt_floor_add_one _
  have h3 : (m : ℚ) ≤ b + 1/2 := Int.floor_le _
  have h4 : b + 1/2 < (m : ℚ) + 1 := Int.lt_floor_add_one _
  have ead : a * d = v * o := by rw [ha]; field_simp
  have ebo : b * o = (k : ℚ) * d := by rw [hb]; field_simp
  have h1d : (k : ℚ) * d ≤ v * o + d / 2 := by
    calc (k : ℚ) * d ≤ (a + 1/2) * d := mul_le_mul_of_nonneg_right h1 hd.le
      _ = a * d + d / 2 := by ring
      _ = v * o + d / 2 := by rw [ead]
  have h2d : v * o + d / 2 < (k : ℚ) * d + d := by
    calc v * o + d / 2 = a * d + d / 2 := by rw [ead]
      _ = (a + 1/2) * d := by ring
      _ < ((k : ℚ) + 1) * d := mul_lt_mul_of_pos_right h2 hd
      _ = (k : ℚ) * d + d := by ring
  have h3o : (m : ℚ) * o ≤ (k : ℚ) * d + o / 2 := by
    calc (m : ℚ) * o ≤ (b + 1/2) * o := mul_le_mul_of_nonneg_right h3 ho.le
      _ = b * o + o / 2 := by ring
      _ = (k : ℚ) * d + o / 2 := by rw [ebo]
  have h4o : (k : ℚ) * d + o / 2 < (m : ℚ) * o + o := by
    calc (k : ℚ) * d + o / 2 = b * o + o / 2 := by rw [ebo]
      _ = (b + 1/2) * o := by ring
      _ < ((m : ℚ) + 1) * o := mul_lt_mul_of_pos_right h4 ho
      _ = (m : ℚ) * o + o := by ring
  rw [abs_le]
  constructor
  · have hstep : (v - 1) * o < (m : ℚ) * o := by nlinarith [h2d, h4o, hdo]
    linarith [(mul_lt_mul_right ho).1 hstep]
  · have hstep : (m : ℚ) * o ≤ (v + 1) * o := by nlinarith [h1d, h3o, hdo]
    linarith [(mul_le_mul_right ho).1 hstep]

/-- Claim C7 as amended: when the display dimensions do not exceed the
full-resolution dimensions on each axis (the preview is a downscaled image,
`dw ≤ ow` and `dh ≤ oh` with positive display extents), mapping a drawn
rectangle to full resolution and applying the same mapping back reproduces
every coordinate within 1 unit per axis; without that hypothesis the bound
fails (`claim_C7_counterexample`). -/
theorem claim_C7_roundtrip (r : RectQ) (dw dh ow oh : ℚ) (r1 : RectZ)
    (hdw : 0 < dw) (hdh : 0 < dh) (hwo : dw ≤ ow) (hho : dh ≤ oh)
    (h : mapRect r dw dh ow oh = some r1) :
    ∃ r2 : RectZ, mapRect (rectZQ r1) ow oh dw dh = some r2 ∧
      |(r2.left : ℚ) - r.left| ≤ 1 ∧ |(r2.top : ℚ) - r.top| ≤ 1 ∧
      |(r2.width : ℚ) - r.width| ≤ 1 ∧ |(r2.height : ℚ) - r.height| ≤ 1 := by
  by_cases hsmall : r.width < 5 ∨ r.height < 5
  · unfold mapRect at h
    rw [if_pos hsmall] at h
    exact absurd h (by simp)
  · push_neg at hsmall
    obtain ⟨hw5, hh5⟩ := hsmall
    have hne : ¬(r.width < 5 ∨ r.height < 5) := by push_neg; exact ⟨hw5, hh5⟩
    have heq : r1 = RectZ.mk (mapAxis r.left dw ow) (mapAxis r.top dh oh)
        (mapAxis r.width dw ow) (mapAxis r.height dh oh) := by
      rw [mapRect_eq_some r dw dh ow oh hne] at h
      exact (Option.some.inj h).symm
    subst heq
    have hwid : (5 : ℤ) ≤ mapAxis r.width dw ow := five_le_mapAxis _ _ _ hdw hwo hw5
    have hhei : (5 : ℤ) ≤ mapAxis r.height dh oh := five_le_mapAxis _ _ _ hdh hho hh5
    refine ⟨_, mapRect_eq_some _ _ _ _ _ ?_, ?_, ?_, ?_, ?_⟩
    · simp only [rectZQ, not_or, not_lt]
      constructor
      · exact_mod_cast hwid
      · exact_mod_cast hhei
    · exact roundtrip_axis r.left dw ow hdw hwo
    · exact roundtrip_axis r.top dh oh hdh hho
    · exact roundtrip_axis r.width dw ow hdw hwo
    · exact roundtrip_axis r.height dh oh hdh hho

/-- Witness for the amended claim C7 at a concrete input: a 10×6 rectangle at
(-3, 2) on a 100×50 display of a 200×100 page round-trips exactly. -/
theorem claim_C7_witness :
    (0 : ℚ) < 100 ∧ (0 : ℚ) < 50 ∧ (100 : ℚ) ≤ 200 ∧ (50 : ℚ) ≤ 100 ∧
      mapRect (RectQ.mk (-3) 2 10 6) 100 50 200 100 = some (RectZ.mk (-6) 4 20 12) ∧
      (∃ r2 : RectZ, mapRect (rectZQ (RectZ.mk (-6) 4 20 12)) 200 100 100 50 = some r2 ∧
        |(r2.left : ℚ) - (RectQ.mk (-3) 2 10 6).left| ≤ 1 ∧
        |(r2.top : ℚ) - (RectQ.mk (-3) 2 10 6).top| ≤ 1 ∧
        |(r2.width : ℚ) - (RectQ.mk (-3) 2 10 6).width| ≤ 1 ∧
        |(r2.height : ℚ) - (RectQ.mk (-3) 2 10 6).height| ≤ 1) :=
  ⟨by norm_num, by norm_num, by norm_num, by norm_num,
    by norm_num [mapRect, mapAxis, jsRound],
    claim_C7_roundtrip _ _ _ _ _ _ (by norm_num) (by norm_num) (by norm_num) (by norm_num)
      (by norm_num [mapRect, mapAxis, jsRound])⟩

/-! ## Claim C4 -/

/-- A completed document snapshot with one selected page, used to exercise a
re-recognition run. -/
def runDemoFile : ProcessedFile :=
  { id := "file-1", status := FileStatus.completed, progress := 100,
    ocrEngine := some OcrEngine.tesseract, languages := some ["eng"], error := none,
    extractedData := some [(1, "old text")], pageImages := [(1, "img1")],
    analysis := some "done", manuallyEditedPages := [(1, "edited text")],
    totalPages := some 3, selectedPages := [1],
    structuredDataPreview := none,
    extractionTasks := [defaultExtractionTask "task-1"] }

/-- The tesseract run configuration used by the concrete run theorems. -/
def tesseractRunCfg : RunConfig :=
  { engine := OcrEngine.tesseract, langs := ["eng"], freshTaskId := "task-2" }

/-- A recognition backend that throws on every page. -/
def failingRecognize : Nat → Except String PageOut :=
  fun _ => Except.error "Recognition failed"

/-- `runDemoFile` as the `catch` handler leaves it after a failed run. -/
def runDemoFileErr : ProcessedFile :=
  { runDemoFile with status := FileStatus.error, progress := 0, error := some "Recognition failed" }

/-- Counterexample to claim C4 as stated: on a tesseract run whose first page
recognition throws, the worker was created but `terminate()` is never reached
— the `catch` handler (page.tsx lines 593-602) transitions the document to
`error` without releasing the worker, because the terminate call sits on the
success path only (lines 542-544) and there is no `finally`. -/
theorem claim_C4_counterexample :
    (processFileRun [runDemoFile] runDemoFile tesseractRunCfg failingRecognize
      (fun _ => "img")).workerCreated = true ∧
    (processFileRun [runDemoFile] runDemoFile tesseractRunCfg failingRecognize
      (fun _ => "img")).workerTerminated = false ∧
    (processFileRun [runDemoFile] runDemoFile tesseractRunCfg failingRecognize
      (fun _ => "img")).files = [runDemoFileErr] := by decide

/-- Claim C4 as amended: the in-process recognizer worker is created exactly
for tesseract runs and terminated exactly when such a run succeeds; on the
failure path — any page recognition throwing — the run ends in the `catch`
handler and the worker is never terminated. -/
theorem claim_C4_worker_teardown (files : List ProcessedFile) (snapshot : ProcessedFile)
    (cfg : RunConfig) (recognize : Nat → Except String PageOut) (render : Nat → String) :
    (processFileRun files snapshot cfg recognize render).workerCreated =
      (cfg.engine == OcrEngine.tesseract) ∧
    (processFileRun files snapshot cfg recognize render).workerTerminated =
      ((cfg.engine == OcrEngine.tesseract) &&
        (firstFailure recognize (sortNats snapshot.selectedPages)).isNone) := by
  have key : ∀ (pages : List Nat) (acc : RunAcc),
      (runLoop snapshot cfg recognize render (sortNats snapshot.selectedPages).length
          pages acc).workerCreated = (cfg.engine == OcrEngine.tesseract) ∧
      (runLoop snapshot cfg recognize render (sortNats snapshot.selectedPages).length
          pages acc).workerTerminated =
        ((cfg.engine == OcrEngine.tesseract) && (firstFailure recognize pages).isNone) := by
    intro pages
    induction pages with
    | nil => intro acc; simp [runLoop, firstFailure]
    | cons p ps ih =>
      intro acc
      unfold runLoop firstFailure
      cases recognize p with
      | error msg => simp
      | ok out => simpa using ih _
  exact key _ _

/-! ## Claim C9 -/

/-- Claim C9: if any page of a run throws, the document entry in the final
files list is the snapshot taken when the run was triggered with only status
set to error, progress set to 0 and the error message recorded — page
recognition results, extraction tasks, page images and manually edited pages
all revert to their pre-run (snapshot) values. -/
theorem claim_C9_error_restores_snapshot (files : List ProcessedFile)
    (snapshot : ProcessedFile) (cfg : RunConfig)
    (recognize : Nat → Except String PageOut) (render : Nat → String) (msg : String)
    (hfail : firstFailure recognize (sortNats snapshot.selectedPages) = some msg) :
    ∀ f ∈ (processFileRun files snapshot cfg recognize render).files,
      f.id = snapshot.id →
        f = { snapshot with status := FileStatus.error, progress := 0, error := some msg } := by
  have key : ∀ (pages : List Nat) (acc : RunAcc), firstFailure recognize pages = some msg →
      ∀ f ∈ (runLoop snapshot cfg recognize render
          (sortNats snapshot.selectedPages).length pages acc).files,
        f.id = snapshot.id →
          f = { snapshot with status := FileStatus.error, progress := 0, error := some msg } := by
    intro pages
    induction pages with
    | nil => intro acc h; simp [firstFailure] at h
    | cons p ps ih =>
      intro acc h f hf hid
      unfold firstFailure at h
      unfold runLoop at hf
      cases hrec : recognize p with
      | error m =>
        rw [hrec] at h hf
        simp only at h hf
        obtain rfl : m = msg := Option.some.inj h
        simp only [errorRunUpdate, List.mem_map] at hf
        obtain ⟨f0, _, hf0⟩ := hf
        by_cases hcase : f0.id == snapshot.id
        · rw [if_pos hcase] at hf0
          exact hf0.symm
        · rw [if_neg hcase] at hf0
          subst hf0
          exact absurd hid (by simpa using hcase)
      | ok out =>
        rw [hrec] at h hf
        simp only at h hf
        exact ih _ h f hf hid
  intro f hf hid
  exact key _ _ hfail f hf hid

/-- Witness for claim C9 at a concrete failing run: the snapshot with status
`error`, progress 0 and the message recorded is exactly what the files list
holds for the document afterwards. -/
theorem claim_C9_witness :
    firstFailure failingRecognize (sortNats runDemoFile.selectedPages) =
      some "Recognition failed" ∧
    runDemoFileErr ∈
      (processFileRun [runDemoFile] runDemoFile tesseractRunCfg failingRecognize
        (fun _ => "img")).files ∧
    runDemoFileErr =
      { runDemoFile with status := FileStatus.error, progress := 0, error := some "Recognition failed" } :=
  ⟨rfl, by decide,
    claim_C9_error_restores_snapshot [runDemoFile] runDemoFile tesseractRunCfg
      failingRecognize (fun _ => "img") "Recognition failed" rfl _ (by decide) (by decide)⟩

/-! ## Claim C10 -/

/-- Claim C10: starting from a non-empty selected-language list, a language
change never leaves the list empty — a request whose result would contain
zero languages is rejected with both the language list and the whitelist
unchanged, and an accepted request commits the new list and rederives the
whitelist as the English block (when "eng" is selected) followed by the Hindi
block (when "hin" is selected) followed by the fixed symbol set. -/
theorem claim_C10_language_invariant (lang : String) (checked : Bool) (st : LangConfig)
    (h : st.languages ≠ []) :
    (handleLanguageChange lang checked st).languages ≠ [] ∧
    (computeNewLangs lang checked st.languages = [] →
      handleLanguageChange lang checked st = st) ∧
    (computeNewLangs lang checked st.languages ≠ [] →
      (handleLanguageChange lang checked st).languages =
        computeNewLangs lang checked st.languages ∧
      (handleLanguageChange lang checked st).charWhitelist =
        (if "eng" ∈ computeNewLangs lang checked st.languages then ENG_CHARS else "") ++
          (if "hin" ∈ computeNewLangs lang checked st.languages then HINDI_CHARS else "") ++
          SYMBOLS) := by
  by_cases hx : computeNewLangs lang checked st.languages = []
  · refine ⟨?_, fun _ => ?_, fun hc => absurd hx hc⟩ <;>
      simp [handleLanguageChange, hx, h]
  · refine ⟨?_, fun hc => absurd hc hx, fun _ => ?_⟩ <;>
      simp [handleLanguageChange, hx, deriveWhitelist]

/-- Witness for claim C10 at a concrete input: adding "hin" to the selected
language "eng" keeps the list non-empty and rederives the whitelist as the
English block, the Hindi block, then the symbols. -/
theorem claim_C10_witness :
    (({ languages := ["eng"], charWhitelist := ENG_CHARS ++ SYMBOLS } : LangConfig).languages ≠ []) ∧
    (handleLanguageChange "hin" true
      { languages := ["eng"], charWhitelist := ENG_CHARS ++ SYMBOLS }).languages ≠ [] ∧
    (handleLanguageChange "hin" true
      { languages := ["eng"], charWhitelist := ENG_CHARS ++ SYMBOLS }).languages = ["eng", "hin"] ∧
    (handleLanguageChange "hin" true
      { languages := ["eng"], charWhitelist := ENG_CHARS ++ SYMBOLS }).charWhitelist =
      ENG_CHARS ++ HINDI_CHARS ++ SYMBOLS :=
  ⟨by decide,
    (claim_C10_language_invariant "hin" true
      { languages := ["eng"], charWhitelist := ENG_CHARS ++ SYMBOLS } (by decide)).1,
    by decide, by decide⟩
